import Mathlib

/-!
Verification development for the GROBID batch client
(source: grobid-client.py).

The pipeline is shallowly embedded: the filesystem is a finite map from
paths to contents plus a directory listing; the HTTP transport
(ApiClient.post, an external collaborator) is an oracle function from the
request to a pair of status code and body; console output, log entries,
file opens, sleeps and writes are recorded in an explicit trace.
-/

namespace Grobid

/-- Characters kept after the last path separator; ntpath.basename treats
both the backslash and the forward slash as separators (drive letters do
not occur in the paths produced by this client and are not modelled). -/
def basenameAux (cs : List Char) : List Char :=
  cs.foldl (fun acc c => if c = '/' ∨ c = '\\' then [] else acc ++ [c]) []

/-- ntpath.basename on the paths this client builds. -/
def ntpathBasename (p : String) : String :=
  String.mk (basenameAux p.data)

/-- Bool test that s starts with pre (on the underlying character lists,
so that it evaluates inside the kernel). -/
def strStartsWith (s pre : String) : Bool :=
  pre.data.isPrefixOf s.data

/-- Bool test that s ends with suf. -/
def strEndsWith (s suf : String) : Bool :=
  suf.data.isSuffixOf s.data

/-- Index of the last dot of the character list, if any. -/
def lastDotIdx (cs : List Char) : Option Nat :=
  (List.range cs.length).foldl
    (fun acc i => if cs.getD i ' ' = '.' then some i else acc) none

/-- os.path.splitext, root component: split at the last dot unless every
character before it is itself a dot (so names made only of leading dots
keep no extension, as in CPython genericpath, applied here to a basename
that contains no separator). -/
def splitextRoot (s : String) : String :=
  match lastDotIdx s.data with
  | none => s
  | some i =>
    if (s.data.take i).all (fun c => c == '.') then s
    else String.mk (s.data.take i)

/-- posixpath.join restricted to two components, as used at line 66. -/
def osPathJoin (a b : String) : String :=
  if strStartsWith b "/" then b
  else if a == "" || strEndsWith a "/" then a ++ b
  else a ++ "/" ++ b

/-- The json configuration loaded by _load_config. -/
structure Config where
  batch_size : Nat
  grobid_server : String
  grobid_port : String
  sleep_time : Nat
  deriving DecidableEq, Repr

/-- Filesystem model: regular files (path, content) and directories with
their entry names. -/
structure FS where
  files : List (String × String)
  dirs : List (String × List String)
  deriving DecidableEq, Repr

/-- os.path.isfile. -/
def FS.isFile (fs : FS) (p : String) : Bool :=
  (fs.files.lookup p).isSome

/-- open(p, rb).read: the content of a regular file, none if absent
(Python raises FileNotFoundError). -/
def FS.read (fs : FS) (p : String) : Option String :=
  fs.files.lookup p

/-- io.open(p, w): (over)write one regular file. -/
def FS.setFile (fs : FS) (p c : String) : FS :=
  { fs with files := (p, c) :: fs.files.filter (fun e => e.1 != p) }

/-- Apply a recorded list of writes to the filesystem, in order. -/
def applyWrites (fs : FS) (ws : List (String × String)) : FS :=
  ws.foldl (fun f pc => f.setFile pc.1 pc.2) fs

/-- glob.glob(dir + "/*.pdf"): entries of dir whose name matches *.pdf;
glob hides entries whose name starts with a dot; an absent directory
yields the empty list (no exception). -/
def globPdf (fs : FS) (dir : String) : List String :=
  match fs.dirs.lookup dir with
  | none => []
  | some names =>
    (names.filter (fun nm => !strStartsWith nm "." && strEndsWith nm ".pdf")).map
      (fun nm => dir ++ "/" ++ nm)

/-- One multipart POST as handed to ApiClient.post: url, the file field
(filename, bytes, content type), the data fields, the headers. -/
structure Request where
  url : String
  fileName : String
  fileContent : String
  contentType : String
  data : List (String × String)
  headers : List (String × String)
  deriving DecidableEq, Repr

/-- Lines 87-93: the_data, one entry per enabled flag, nothing else. -/
def theData (generateIDs consolidate_header consolidate_citations : Bool) :
    List (String × String) :=
  (if generateIDs then [("generateIDs", "1")] else []) ++
  (if consolidate_header then [("consolidateHeader", "1")] else []) ++
  (if consolidate_citations then [("consolidateCitations", "1")] else [])

/-- Lines 80-83: the_url, the port segment present only when the
configured port string is non-empty. -/
def mkUrl (cfg : Config) (service : String) : String :=
  "http://" ++ cfg.grobid_server ++
    (if cfg.grobid_port.length > 0 then ":" ++ cfg.grobid_port else "") ++
    "/api/" ++ service

/-- The request built by process_pdf before calling self.post. -/
def mkRequest (cfg : Config) (service pdf_file content : String)
    (generateIDs consolidate_header consolidate_citations : Bool) : Request :=
  { url := mkUrl cfg service
    fileName := pdf_file
    fileContent := content
    contentType := "application/pdf"
    data := theData generateIDs consolidate_header consolidate_citations
    headers := [("Accept", "text/plain")] }

/-- Terminal outcome of one process_pdf invocation that returns normally. -/
inductive Outcome where
  | skipped
  | written
  | failed (status : Nat)
  deriving DecidableEq, Repr

/-- Python exceptions that the embedded code can raise. -/
inductive PyError where
  | typeError
  | valueError
  | fileNotFoundError
  | assertionError
  deriving DecidableEq, Repr

/-- Observable side effects of one process_pdf invocation. -/
structure PdfTrace where
  opens : List String
  requests : List Request
  sleeps : List Nat
  writes : List (String × String)
  logs : List (String × Nat)
  prints : List String
  deriving DecidableEq, Repr

/-- The empty trace. -/
def emptyTrace : PdfTrace :=
  { opens := [], requests := [], sleeps := [], writes := [], logs := [], prints := [] }

instance : DecidableEq (Except PyError Outcome) := fun a b =>
  match a, b with
  | .ok x, .ok y =>
    if h : x = y then .isTrue (congrArg Except.ok h)
    else .isFalse (fun hh => h (Except.ok.inj hh))
  | .error x, .error y =>
    if h : x = y then .isTrue (congrArg Except.error h)
    else .isFalse (fun hh => h (Except.error.inj hh))
  | .ok _, .error _ => .isFalse (fun hh => Except.noConfusion hh)
  | .error _, .ok _ => .isFalse (fun hh => Except.noConfusion hh)

/-- Trace plus result of one process_pdf invocation; an exception leaves
the function without a return value. -/
structure PdfRun where
  trace : PdfTrace
  result : Except PyError Outcome
  deriving DecidableEq, Repr

/-- Line 66: filename = os.path.join(output, splitext(basename)[0] + ".tei.xml"). -/
def outputPath (output pdf_file : String) : String :=
  osPathJoin output (splitextRoot (ntpathBasename pdf_file) ++ ".tei.xml")

/-- Lines 62-117, process_pdf. The output argument is optional because the
command line defaults it to None, and os.path.join(None, _) raises a
TypeError. On 503 the source sleeps and then re-invokes
self.process_pdf(pdf_file, output) with five required positional arguments
missing, which raises TypeError in the worker. -/
def process_pdf (cfg : Config) (fs : FS) (post : Request → Nat × String)
    (pdf_file : String) (output : Option String) (service : String)
    (generateIDs consolidate_header consolidate_citations error_log : Bool) :
    PdfRun :=
  match output with
  | none => { trace := emptyTrace, result := .error .typeError }
  | some out =>
    let filename := outputPath out pdf_file
    if fs.isFile filename then
      { trace := emptyTrace, result := .ok .skipped }
    else
      match fs.read pdf_file with
      | none =>
        { trace := { emptyTrace with prints := [pdf_file] },
          result := .error .fileNotFoundError }
      | some content =>
        let req := mkRequest cfg service pdf_file content
          generateIDs consolidate_header consolidate_citations
        let resp := post req
        if resp.1 = 503 then
          { trace :=
              { opens := [pdf_file], requests := [req],
                sleeps := [cfg.sleep_time], writes := [], logs := [],
                prints := [pdf_file] },
            result := .error .typeError }
        else if resp.1 = 200 then
          { trace :=
              { opens := [pdf_file], requests := [req], sleeps := [],
                writes := [(filename, resp.2)], logs := [],
                prints := [pdf_file] },
            result := .ok .written }
        else
          { trace :=
              { opens := [pdf_file], requests := [req], sleeps := [],
                writes := [],
                logs := if error_log then [(pdf_file, resp.1)] else [],
                prints := [pdf_file,
                  "Processing failed with error " ++ toString resp.1] },
            result := .ok (.failed resp.1) }

/-- Lines 44-49, loop body: append the file to the pending list; when the
pending list reaches batch_size, dispatch it and reset. -/
def procStep {α : Type} (B : Nat) (s : List (List α) × List α) (f : α) :
    List (List α) × List α :=
  if (s.2 ++ [f]).length = B then (s.1 ++ [s.2 ++ [f]], [])
  else (s.1, s.2 ++ [f])

/-- Lines 51-53: dispatch the last, partial batch when non-empty. -/
def flushBatches {α : Type} (s : List (List α) × List α) : List (List α) :=
  if s.2.length > 0 then s.1 ++ [s.2] else s.1

/-- The batches dispatched by process, in dispatch order. -/
def batchesOf {α : Type} (B : Nat) (files : List α) : List (List α) :=
  flushBatches (files.foldl (procStep B) ([], []))

/-- One submission inside process_batch: run process_pdf, let its writes
take effect, record the run; the executor stores exceptions in the future
and nothing ever reads the future, so an exception is captured, not
re-raised. -/
def pbStep (cfg : Config) (post : Request → Nat × String)
    (output : Option String) (service : String)
    (g ch cc el : Bool) (s : FS × List PdfRun) (f : String) :
    FS × List PdfRun :=
  let r := process_pdf cfg s.1 post f output service g ch cc el
  (applyWrites s.1 r.trace.writes, s.2 ++ [r])

/-- Lines 55-60, process_batch: submit every file of the batch and wait
for all of them (modelled as one linearization of the pool). -/
def process_batch (cfg : Config) (post : Request → Nat × String)
    (output : Option String) (service : String) (g ch cc el : Bool)
    (fs : FS) (pdf_files : List String) : FS × List PdfRun :=
  pdf_files.foldl (pbStep cfg post output service g ch cc el) (fs, [])

/-- One batch inside process: thread the filesystem, accumulate the runs. -/
def runStep (cfg : Config) (post : Request → Nat × String)
    (output : Option String) (service : String) (g ch cc el : Bool)
    (s : FS × List PdfRun) (b : List String) : FS × List PdfRun :=
  let br := process_batch cfg post output service g ch cc el s.1 b
  (br.1, s.2 ++ br.2)

/-- Per-run observable outcome of process. -/
structure RunTrace where
  batches : List (List String)
  runs : List PdfRun
  deriving DecidableEq, Repr

/-- Lines 35-53, process: glob the input directory (a None input makes
None + "/*.pdf" raise TypeError in the main process), partition into
batches, dispatch each batch; ProcessPoolExecutor(max_workers=0) raises
ValueError at the first dispatch when at least one batch exists. -/
def process (cfg : Config) (fs : FS) (post : Request → Nat × String)
    (input output : Option String) (n : Nat) (service : String)
    (g ch cc el : Bool) : Except PyError RunTrace :=
  match input with
  | none => .error .typeError
  | some dir =>
    let pdf_files := globPdf fs dir
    let bs := batchesOf cfg.batch_size pdf_files
    if bs ≠ [] ∧ n = 0 then .error .valueError
    else
      let r := bs.foldl (runStep cfg post output service g ch cc el) (fs, [])
      .ok { batches := bs, runs := r.2 }

/-- Value of a non-empty all-digit character list, none otherwise. -/
def digitsVal (cs : List Char) : Option Nat :=
  if cs.isEmpty then none
  else if cs.all (fun c => c.isDigit) then
    some (cs.foldl (fun n c => 10 * n + (c.toNat - 48)) 0)
  else none

/-- Python int() applied to a string: surrounding spaces stripped, an
optional sign, then decimal digits; anything else raises ValueError
(modelled as none). -/
def pyInt (s : String) : Option Int :=
  let t := ((s.data.dropWhile (fun c => c == ' ')).reverse.dropWhile
    (fun c => c == ' ')).reverse
  match t with
  | '-' :: rest => (digitsVal rest).map (fun m => -(m : Int))
  | '+' :: rest => (digitsVal rest).map (fun m => (m : Int))
  | rest => (digitsVal rest).map (fun m => (m : Int))

/-- Concurrency value after the command line is parsed, and whether the
fallback warning was printed. -/
structure ParsedN where
  n : Int
  warned : Bool
  deriving DecidableEq, Repr

/-- Lines 141-146: n = 1; try: n = int(args.n); assert n > 0 except
ValueError: print a warning (whose text claims 10 will be used). The
AssertionError of a non-positive parsed value is not a ValueError, so it
escapes the except clause and aborts the run; a non-numeric value leaves
n at 1. -/
def parseConcurrency (argN : String) : Except PyError ParsedN :=
  match pyInt argN with
  | none => .ok { n := 1, warned := true }
  | some v => if v > 0 then .ok { n := v, warned := false }
    else .error .assertionError

/-- Chunking of a list into contiguous pieces of size B (fuel-indexed so
that the recursion is structural); used only as a proof device to reason
about batchesOf. -/
def chunksGo {α : Type} (B : Nat) : Nat → List α → List (List α)
  | _, [] => []
  | 0, _ :: _ => []
  | fuel+1, a :: l =>
    List.take B (a :: l) :: chunksGo B fuel (List.drop B (a :: l))

/-- While the pending list stays strictly below the batch size, the loop
only accumulates: no batch is dispatched. -/
theorem procStep_fill {α : Type} (B : Nat) :
    ∀ (l : List α) (acc : List (List α)) (cur : List α),
      cur.length + l.length < B →
      l.foldl (procStep B) (acc, cur) = (acc, cur ++ l) := by
  intro l
  induction l with
  | nil => intro acc cur _; simp
  | cons a t ih =>
    intro acc cur h
    simp only [List.length_cons] at h
    have hne : ¬ (((acc, cur).2 ++ [a]).length = B) := by
      simp only [List.length_append, List.length_cons, List.length_nil]
      omega
    simp only [List.foldl_cons, procStep, if_neg hne]
    rw [ih acc (cur ++ [a]) (by simp; omega)]
    simp

/-- When the pending list plus the remaining input exactly reach the batch
size, the loop dispatches them as one batch and ends with an empty pending
list. -/
theorem procStep_close {α : Type} (B : Nat) :
    ∀ (l : List α) (acc : List (List α)) (cur : List α),
      cur.length + l.length = B → l ≠ [] →
      l.foldl (procStep B) (acc, cur) = (acc ++ [cur ++ l], []) := by
  intro l
  induction l with
  | nil => intro acc cur _ hne; exact absurd rfl hne
  | cons a t ih =>
    intro acc cur h _
    cases t with
    | nil =>
      have hyes : (((acc, cur).2 ++ [a]).length = B) := by
        simp only [List.length_cons, List.length_nil] at h
        simp only [List.length_append, List.length_cons, List.length_nil]
        omega
      simp only [List.foldl_cons, List.foldl_nil, procStep, if_pos hyes]
    | cons b t2 =>
      simp only [List.length_cons] at h
      have hne : ¬ (((acc, cur).2 ++ [a]).length = B) := by
        simp only [List.length_append, List.length_cons, List.length_nil]
        omega
      rw [List.foldl_cons]
      have hstep : procStep B (acc, cur) a = (acc, cur ++ [a]) := by
        simp only [procStep, if_neg hne]
      rw [hstep, ih acc (cur ++ [a]) (by simp; omega) (by simp)]
      simp

/-- Splitting off the first full batch of the loop. -/
theorem procStep_split {α : Type} (B : Nat) (hB : 1 ≤ B) (l : List α)
    (hl : B ≤ l.length) (acc : List (List α)) :
    l.foldl (procStep B) (acc, []) =
      (l.drop B).foldl (procStep B) (acc ++ [l.take B], []) := by
  conv_lhs => rw [← List.take_append_drop B l]
  rw [List.foldl_append]
  have hlen : (l.take B).length = B := by
    rw [List.length_take]; omega
  have hne : l.take B ≠ [] := by
    intro hnil
    rw [hnil] at hlen
    simp at hlen
    omega
  rw [procStep_close B (l.take B) acc [] (by simpa using hlen) hne]
  simp

/-- The dispatch loop of process produces exactly the fuel-indexed
chunking of its input. -/
theorem batches_eq_chunks_aux {α : Type} (B : Nat) (hB : 1 ≤ B) :
    ∀ (fuel : Nat) (l : List α) (acc : List (List α)), l.length ≤ fuel →
      flushBatches (l.foldl (procStep B) (acc, [])) = acc ++ chunksGo B fuel l := by
  intro fuel
  induction fuel with
  | zero =>
    intro l acc h
    have : l = [] := List.length_eq_zero.mp (Nat.le_zero.mp h)
    subst this
    simp [chunksGo, flushBatches]
  | succ fuel ih =>
    intro l acc h
    cases l with
    | nil => simp [chunksGo, flushBatches]
    | cons a t =>
      by_cases hc : (a :: t).length < B
      · rw [procStep_fill B (a :: t) acc [] (by simpa using hc)]
        have hdrop : List.drop B (a :: t) = [] :=
          List.drop_eq_nil_iff.mpr (Nat.le_of_lt hc)
        have htake : List.take B (a :: t) = a :: t :=
          List.take_of_length_le (Nat.le_of_lt hc)
        simp [flushBatches, chunksGo, hdrop, htake]
      · push_neg at hc
        rw [procStep_split B hB (a :: t) hc acc]
        have hlen : (List.drop B (a :: t)).length ≤ fuel := by
          rw [List.length_drop]
          simp only [List.length_cons] at h ⊢
          omega
        rw [ih (List.drop B (a :: t)) (acc ++ [List.take B (a :: t)]) hlen]
        simp [chunksGo]

/-- batchesOf agrees with the fuel-indexed chunking. -/
theorem batchesOf_eq_chunksGo {α : Type} (B : Nat) (hB : 1 ≤ B) (l : List α) :
    batchesOf B l = chunksGo B l.length l := by
  have := batches_eq_chunks_aux B hB l.length l [] (Nat.le_refl _)
  simpa [batchesOf] using this

/-- No input, no batch. -/
theorem batchesOf_nil {α : Type} (B : Nat) : batchesOf B ([] : List α) = [] := by
  simp [batchesOf, flushBatches]

/-- Concatenating the chunks restores the input, in order. -/
theorem chunksGo_flatten {α : Type} (B : Nat) (hB : 1 ≤ B) :
    ∀ (fuel : Nat) (l : List α), l.length ≤ fuel →
      (chunksGo B fuel l).flatten = l := by
  intro fuel
  induction fuel with
  | zero =>
    intro l h
    have : l = [] := List.length_eq_zero.mp (Nat.le_zero.mp h)
    subst this
    simp [chunksGo]
  | succ fuel ih =>
    intro l h
    cases l with
    | nil => simp [chunksGo]
    | cons a t =>
      simp only [chunksGo, List.flatten_cons]
      rw [ih (List.drop B (a :: t)) (by
        rw [List.length_drop]
        simp only [List.length_cons] at h ⊢
        omega)]
      exact List.take_append_drop B (a :: t)

/-- There are exactly ceil(N/B) chunks. -/
theorem chunksGo_length {α : Type} (B : Nat) (hB : 1 ≤ B) :
    ∀ (fuel : Nat) (l : List α), l.length ≤ fuel →
      (chunksGo B fuel l).length = (l.length + B - 1) / B := by
  intro fuel
  induction fuel with
  | zero =>
    intro l h
    have : l = [] := List.length_eq_zero.mp (Nat.le_zero.mp h)
    subst this
    simp only [chunksGo, List.length_nil]
    rw [Nat.div_eq_of_lt (by omega)]
  | succ fuel ih =>
    intro l h
    cases l with
    | nil =>
      simp only [chunksGo, List.length_nil]
      rw [Nat.div_eq_of_lt (by omega)]
    | cons a t =>
      simp only [chunksGo, List.length_cons]
      rw [ih (List.drop B (a :: t)) (by
        rw [List.length_drop]
        simp only [List.length_cons] at h ⊢
        omega)]
      rw [List.length_drop]
      simp only [List.length_cons]
      have h1 : t.length + 1 + B - 1 = t.length + B := by omega
      rw [h1, Nat.add_div_right _ (by omega)]
      by_cases h2 : B ≤ t.length + 1
      · have he : t.length + 1 - B + B - 1 = t.length := by omega
        rw [he]
      · have hz : t.length + 1 - B = 0 := by omega
        rw [hz]
        have e1 : (0 + B - 1) / B = 0 := Nat.div_eq_of_lt (by omega)
        have e2 : t.length / B = 0 := Nat.div_eq_of_lt (by omega)
        rw [e1, e2]

/-- chunksGo of an empty list is empty, whatever the fuel. -/
theorem chunksGo_nil {α : Type} (B fuel : Nat) :
    chunksGo B fuel ([] : List α) = [] := by
  cases fuel <;> rfl

/-- chunksGo of a non-empty list with positive fuel is non-empty. -/
theorem chunksGo_ne_nil {α : Type} (B fuel : Nat) (a : α) (t : List α) :
    chunksGo B (fuel + 1) (a :: t) ≠ [] := by
  simp [chunksGo]

/-- Every chunk but the last has length exactly B. -/
theorem chunksGo_dropLast {α : Type} (B : Nat) (hB : 1 ≤ B) :
    ∀ (fuel : Nat) (l : List α), l.length ≤ fuel →
      ∀ b ∈ (chunksGo B fuel l).dropLast, b.length = B := by
  intro fuel
  induction fuel with
  | zero =>
    intro l h b hb
    have : l = [] := List.length_eq_zero.mp (Nat.le_zero.mp h)
    subst this
    simp [chunksGo] at hb
  | succ fuel ih =>
    intro l h b hb
    cases l with
    | nil => simp [chunksGo] at hb
    | cons a t =>
      simp only [chunksGo] at hb
      cases hd : List.drop B (a :: t) with
      | nil =>
        rw [hd, chunksGo_nil] at hb
        simp at hb
      | cons c cs =>
        rw [hd] at hb
        have hflen : (c :: cs).length ≤ fuel := by
          have hlen := congrArg List.length hd
          rw [List.length_drop] at hlen
          simp only [List.length_cons] at h hlen ⊢
          omega
        have hne2 : chunksGo B fuel (c :: cs) ≠ [] := by
          cases fuel with
          | zero => simp at hflen
          | succ f2 => exact chunksGo_ne_nil B f2 c cs
        have hdl : (List.take B (a :: t) :: chunksGo B fuel (c :: cs)).dropLast
            = List.take B (a :: t) :: (chunksGo B fuel (c :: cs)).dropLast := by
          cases hcg : chunksGo B fuel (c :: cs) with
          | nil => exact absurd hcg hne2
          | cons r rs => rfl
        rw [hdl] at hb
        rcases List.mem_cons.mp hb with hbe | hbm
        · subst hbe
          rw [List.length_take]
          have hBlt : B < (a :: t).length := by
            by_contra hle
            push_neg at hle
            rw [List.drop_eq_nil_iff.mpr hle] at hd
            exact List.cons_ne_nil c cs hd.symm
          omega
        · exact ih (c :: cs) hflen b hbm

/-- The last chunk has length N mod B, or B when B divides N. -/
theorem chunksGo_getLast {α : Type} (B : Nat) (hB : 1 ≤ B) :
    ∀ (fuel : Nat) (l : List α), l.length ≤ fuel → l ≠ [] →
      ((chunksGo B fuel l).getLastD []).length =
        if l.length % B = 0 then B else l.length % B := by
  intro fuel
  induction fuel with
  | zero =>
    intro l h hne
    have : l = [] := List.length_eq_zero.mp (Nat.le_zero.mp h)
    exact absurd this hne
  | succ fuel ih =>
    intro l h hne
    cases l with
    | nil => exact absurd rfl hne
    | cons a t =>
      simp only [chunksGo]
      cases hd : List.drop B (a :: t) with
      | nil =>
        rw [chunksGo_nil]
        have hle : (a :: t).length ≤ B := List.drop_eq_nil_iff.mp hd
        have htake : List.take B (a :: t) = a :: t := List.take_of_length_le hle
        rw [htake]
        have hgl1 : ([a :: t] : List (List α)).getLastD [] = a :: t := rfl
        rw [hgl1]
        by_cases hnb : (a :: t).length = B
        · rw [hnb, Nat.mod_self]
          simp
        · have hlt : (a :: t).length < B := Nat.lt_of_le_of_ne hle hnb
          rw [Nat.mod_eq_of_lt hlt, if_neg (by simp)]
      | cons c cs =>
        have hflen : (c :: cs).length ≤ fuel := by
          have hlen := congrArg List.length hd
          rw [List.length_drop] at hlen
          simp only [List.length_cons] at h hlen ⊢
          omega
        have hne2 : chunksGo B fuel (c :: cs) ≠ [] := by
          cases fuel with
          | zero => simp at hflen
          | succ f2 => exact chunksGo_ne_nil B f2 c cs
        have hgl : (List.take B (a :: t) :: chunksGo B fuel (c :: cs)).getLastD ([] : List α)
            = (chunksGo B fuel (c :: cs)).getLastD [] := by
          cases hcg : chunksGo B fuel (c :: cs) with
          | nil => exact absurd hcg hne2
          | cons r rs => rfl
        rw [hgl, ih (c :: cs) hflen (by simp)]
        have hlen2 := congrArg List.length hd
        rw [List.length_drop] at hlen2
        have hBle : B ≤ (a :: t).length := by
          simp only [List.length_cons] at hlen2 ⊢
          omega
        rw [← hlen2, ← Nat.mod_eq_sub_mod hBle]

/-! Concrete fixtures used by closed theorems and witnesses. -/

/-- A concrete configuration. -/
def cfgW : Config :=
  { batch_size := 2, grobid_server := "localhost", grobid_port := "8070",
    sleep_time := 5 }

/-- A transport oracle that always answers 200. -/
def postW200 : Request → Nat × String := fun _ => (200, "TEI BODY")

/-- A transport oracle that always answers 503. -/
def postW503 : Request → Nat × String := fun _ => (503, "")

/-- A transport oracle that always answers 404. -/
def postW404 : Request → Nat × String := fun _ => (404, "not found")

/-- One input directory holding one PDF, empty output directory. -/
def fsW : FS :=
  { files := [("in/a.pdf", "PDFA")], dirs := [("in", ["a.pdf"])] }

/-- Same input, but the output file for a.pdf already exists. -/
def fsSkip : FS :=
  { files := [("out/a.tei.xml", "OLD"), ("in/a.pdf", "PDFA")],
    dirs := [("in", ["a.pdf"])] }

/-- An empty filesystem: no files, no directories. -/
def fsNone : FS := { files := [], dirs := [] }

/-- C1: the claim says a 503 response makes the processor sleep and retry
the same job with the same service and flags; the code instead sleeps and
then calls self.process_pdf(pdf_file, output), dropping the five remaining
required positional arguments, so the invocation dies with a TypeError
after a single request and no retry. -/
theorem C1_typeerror_on_503 :
    process_pdf cfgW fsW postW503 "in/a.pdf" (some "out")
        "processFulltextDocument" true true true false =
      { trace :=
          { opens := ["in/a.pdf"],
            requests := [mkRequest cfgW "processFulltextDocument" "in/a.pdf"
              "PDFA" true true true],
            sleeps := [5], writes := [], logs := [], prints := ["in/a.pdf"] },
        result := .error .typeError } := by
  rfl

/-- C2: the claim says invalid values of the n argument (0 as well as a
non-numeric string) fall back to 10 with a warning; in the code a value of
0 fails the assert whose AssertionError escapes the except ValueError
clause, crashing the run, and a non-numeric value keeps the initial n = 1
while the printed warning claims 10. -/
theorem C2_concurrency_behavior :
    parseConcurrency "0" = .error .assertionError ∧
    parseConcurrency "abc" = .ok { n := 1, warned := true } :=
  ⟨rfl, rfl⟩

/-- C3 counterexample: with a non-existent input directory the run does
not fail; discovery yields the empty list and process returns normally
with no batches, refuting a fatal DiscoveryError. -/
theorem C3_counterexample :
    globPdf fsNone "missing" = [] ∧
    process cfgW fsNone postW200 (some "missing") (some "out") 10 "svc"
        false false false false = .ok { batches := [], runs := [] } :=
  ⟨rfl, rfl⟩

/-- C3 amended: for every input directory that does not exist, discovery
produces the empty file list and the run proceeds without error,
dispatching no batch at all. -/
theorem C3_amended_no_discovery_error (cfg : Config) (fs : FS)
    (post : Request → Nat × String) (dir out : String) (n : Nat)
    (service : String) (g ch cc el : Bool)
    (h : fs.dirs.lookup dir = none) :
    globPdf fs dir = [] ∧
    process cfg fs post (some dir) (some out) n service g ch cc el =
      .ok { batches := [], runs := [] } := by
  have hg : globPdf fs dir = [] := by simp [globPdf, h]
  refine ⟨hg, ?_⟩
  simp [process, hg, batchesOf_nil]

/-- C3 witness: the amended statement at a concrete filesystem. -/
theorem C3_witness :
    fsNone.dirs.lookup "absent" = none ∧
    (globPdf fsNone "absent" = [] ∧
      process cfgW fsNone postW404 (some "absent") (some "out") 3 "svc"
        true false true false = .ok { batches := [], runs := [] }) :=
  ⟨rfl, C3_amended_no_discovery_error cfgW fsNone postW404 "absent" "out" 3
    "svc" true false true false rfl⟩

/-- C4: for every file sequence and batch size B at least 1 the dispatch
loop issues ceil(N/B) contiguous batches in discovery order; every batch
except the last has exactly B files; the last has N mod B files (or B when
B divides N, which also covers all N files when N is below B); an empty
sequence dispatches no batch. -/
theorem C4_batch_partition {α : Type} (B : Nat) (hB : 1 ≤ B) (l : List α) :
    (batchesOf B l).flatten = l ∧
    (batchesOf B l).length = (l.length + B - 1) / B ∧
    (∀ b ∈ (batchesOf B l).dropLast, b.length = B) ∧
    (l ≠ [] → ((batchesOf B l).getLastD []).length =
      if l.length % B = 0 then B else l.length % B) ∧
    batchesOf B ([] : List α) = [] := by
  rw [batchesOf_eq_chunksGo B hB l]
  exact ⟨chunksGo_flatten B hB l.length l (Nat.le_refl _),
    chunksGo_length B hB l.length l (Nat.le_refl _),
    chunksGo_dropLast B hB l.length l (Nat.le_refl _),
    fun hne => chunksGo_getLast B hB l.length l (Nat.le_refl _) hne,
    batchesOf_nil B⟩

/-- C4 witness: the partition property applied at B = 2 and five files. -/
theorem C4_witness :
    (batchesOf 2 [0, 1, 2, 3, 4]).flatten = [0, 1, 2, 3, 4] ∧
    (batchesOf 2 [0, 1, 2, 3, 4]).length = ([0, 1, 2, 3, 4].length + 2 - 1) / 2 :=
  ⟨(C4_batch_partition 2 (by decide) [0, 1, 2, 3, 4]).1,
    (C4_batch_partition 2 (by decide) [0, 1, 2, 3, 4]).2.1⟩

/-- C5: when the computed output path already exists as a regular file,
process_pdf terminates immediately with Skipped: no request is issued, the
source file is not opened, nothing is written, and the filesystem (hence
the existing output file) is unchanged. -/
theorem C5_skip_existing_output (cfg : Config) (fs : FS)
    (post : Request → Nat × String) (pdf_file out service : String)
    (g ch cc el : Bool)
    (h : fs.isFile (outputPath out pdf_file) = true) :
    process_pdf cfg fs post pdf_file (some out) service g ch cc el =
      { trace := emptyTrace, result := .ok .skipped } ∧
    applyWrites fs
      (process_pdf cfg fs post pdf_file (some out) service g ch cc el).trace.writes
      = fs := by
  have he : process_pdf cfg fs post pdf_file (some out) service g ch cc el =
      { trace := emptyTrace, result := .ok .skipped } := by
    simp [process_pdf, h]
  exact ⟨he, by rw [he]; rfl⟩

/-- C5 witness: skipping at a concrete filesystem whose output file is
already present. -/
theorem C5_witness :
    fsSkip.isFile (outputPath "out" "in/a.pdf") = true ∧
    (process_pdf cfgW fsSkip postW200 "in/a.pdf" (some "out") "svc"
        false false false false =
      { trace := emptyTrace, result := .ok .skipped } ∧
    applyWrites fsSkip
      (process_pdf cfgW fsSkip postW200 "in/a.pdf" (some "out") "svc"
        false false false false).trace.writes = fsSkip) :=
  ⟨by decide, C5_skip_existing_output cfgW fsSkip postW200 "in/a.pdf" "out"
    "svc" false false false false (by decide)⟩

/-- C6: one process_pdf invocation performs at most one write; every write
targets the computed output path and happens only when the existence check
found no regular file there, so an existing output file is never
overwritten. -/
theorem C6_write_only_after_check (cfg : Config) (fs : FS)
    (post : Request → Nat × String) (pdf_file out service : String)
    (g ch cc el : Bool) :
    (fs.isFile (outputPath out pdf_file) = true →
      (process_pdf cfg fs post pdf_file (some out) service g ch cc el).trace.writes
        = []) ∧
    (process_pdf cfg fs post pdf_file (some out) service g ch cc el).trace.writes.length
      ≤ 1 ∧
    (∀ w ∈ (process_pdf cfg fs post pdf_file (some out) service g ch cc el).trace.writes,
      w.1 = outputPath out pdf_file ∧
        fs.isFile (outputPath out pdf_file) = false) := by
  by_cases h : fs.isFile (outputPath out pdf_file)
  · simp [process_pdf, h, emptyTrace]
  · have hf : fs.isFile (outputPath out pdf_file) = false := by
      simpa using h
    cases hr : fs.read pdf_file with
    | none => simp [process_pdf, hf, hr, emptyTrace]
    | some content =>
      simp only [process_pdf, hf, hr]
      split_ifs <;> simp_all

/-- C6 witness: the at-most-one-write bound at a concrete job. -/
theorem C6_witness :
    (process_pdf cfgW fsW postW200 "in/a.pdf" (some "out") "svc"
      false false false false).trace.writes.length ≤ 1 :=
  (C6_write_only_after_check cfgW fsW postW200 "in/a.pdf" "out" "svc"
    false false false false).2.1

/-- C7: a 200 response makes process_pdf write the response body verbatim
to the computed output path: the output directory joined with the source
base name whose extension is replaced by .tei.xml. -/
theorem C7_write_on_200 (cfg : Config) (fs : FS)
    (post : Request → Nat × String) (pdf_file out service : String)
    (g ch cc el : Bool) (content body : String)
    (hskip : fs.isFile (outputPath out pdf_file) = false)
    (hsrc : fs.read pdf_file = some content)
    (hpost : post (mkRequest cfg service pdf_file content g ch cc) = (200, body)) :
    process_pdf cfg fs post pdf_file (some out) service g ch cc el =
      { trace :=
          { opens := [pdf_file],
            requests := [mkRequest cfg service pdf_file content g ch cc],
            sleeps := [],
            writes := [(outputPath out pdf_file, body)],
            logs := [], prints := [pdf_file] },
        result := .ok .written } ∧
    outputPath out pdf_file =
      osPathJoin out (splitextRoot (ntpathBasename pdf_file) ++ ".tei.xml") := by
  constructor
  · simp [process_pdf, hskip, hsrc, hpost]
  · rfl

/-- C7 witness: the 200 write at a concrete job. -/
theorem C7_witness :
    fsW.isFile (outputPath "out" "in/a.pdf") = false ∧
    fsW.read "in/a.pdf" = some "PDFA" ∧
    postW200 (mkRequest cfgW "svc" "in/a.pdf" "PDFA" true false false)
      = (200, "TEI BODY") ∧
    (process_pdf cfgW fsW postW200 "in/a.pdf" (some "out") "svc"
        true false false true =
      { trace :=
          { opens := ["in/a.pdf"],
            requests := [mkRequest cfgW "svc" "in/a.pdf" "PDFA" true false false],
            sleeps := [],
            writes := [(outputPath "out" "in/a.pdf", "TEI BODY")],
            logs := [], prints := ["in/a.pdf"] },
        result := .ok .written } ∧
      outputPath "out" "in/a.pdf" =
        osPathJoin "out" (splitextRoot (ntpathBasename "in/a.pdf") ++ ".tei.xml")) :=
  ⟨by decide, rfl, rfl,
    C7_write_on_200 cfgW fsW postW200 "in/a.pdf" "out" "svc" true false false
      true "PDFA" "TEI BODY" (by decide) rfl rfl⟩

/-- C8: each of the three data fields is present, with value 1, exactly
when its flag is set; no other data field is ever sent, and every request
issued by process_pdf carries exactly these data fields. -/
theorem C8_data_fields (g ch cc : Bool) :
    ((theData g ch cc).lookup "generateIDs" = some "1" ↔ g = true) ∧
    ((theData g ch cc).lookup "consolidateHeader" = some "1" ↔ ch = true) ∧
    ((theData g ch cc).lookup "consolidateCitations" = some "1" ↔ cc = true) ∧
    (∀ kv ∈ theData g ch cc,
      kv.1 = "generateIDs" ∨ kv.1 = "consolidateHeader" ∨
        kv.1 = "consolidateCitations") ∧
    (∀ (cfg : Config) (fs : FS) (post : Request → Nat × String)
        (pdf_file : String) (output : Option String) (service : String)
        (el : Bool),
      ∀ r ∈ (process_pdf cfg fs post pdf_file output service g ch cc el).trace.requests,
        r.data = theData g ch cc) := by
  refine ⟨?_, ?_, ?_, ?_, ?_⟩
  · cases g <;> cases ch <;> cases cc <;> decide
  · cases g <;> cases ch <;> cases cc <;> decide
  · cases g <;> cases ch <;> cases cc <;> decide
  · cases g <;> cases ch <;> cases cc <;> decide
  · intro cfg fs post pdf_file output service el r hr
    cases output with
    | none => simp [process_pdf, emptyTrace] at hr
    | some out =>
      by_cases h : fs.isFile (outputPath out pdf_file)
      · simp [process_pdf, h, emptyTrace] at hr
      · have hf : fs.isFile (outputPath out pdf_file) = false := by simpa using h
        cases hsrc : fs.read pdf_file with
        | none => simp [process_pdf, hf, hsrc, emptyTrace] at hr
        | some content =>
          simp only [process_pdf, hf, hsrc] at hr
          split_ifs at hr <;> simp_all [mkRequest]

/-- C8 witness: the field conditions at a concrete flag combination. -/
theorem C8_witness :
    (theData true false true).lookup "generateIDs" = some "1" ↔ true = true :=
  (C8_data_fields true false true).1

/-- C9: a response status that is neither 200 nor 503 yields the terminal
Failed outcome without raising: a console notice is printed, a warning
entry naming the source file and the status is recorded exactly when
error-log mode is on, and nothing is written. -/
theorem C9_failed_terminal (cfg : Config) (fs : FS)
    (post : Request → Nat × String) (pdf_file out service : String)
    (g ch cc el : Bool) (s : Nat) (body content : String)
    (hskip : fs.isFile (outputPath out pdf_file) = false)
    (hsrc : fs.read pdf_file = some content)
    (hpost : post (mkRequest cfg service pdf_file content g ch cc) = (s, body))
    (h503 : s ≠ 503) (h200 : s ≠ 200) :
    process_pdf cfg fs post pdf_file (some out) service g ch cc el =
      { trace :=
          { opens := [pdf_file],
            requests := [mkRequest cfg service pdf_file content g ch cc],
            sleeps := [], writes := [],
            logs := if el then [(pdf_file, s)] else [],
            prints := [pdf_file, "Processing failed with error " ++ toString s] },
        result := .ok (.failed s) } := by
  simp [process_pdf, hskip, hsrc, hpost, h503, h200]

/-- C9 witness: a 404 with error-log mode on at a concrete job. -/
theorem C9_witness :
    fsW.isFile (outputPath "out" "in/a.pdf") = false ∧
    fsW.read "in/a.pdf" = some "PDFA" ∧
    postW404 (mkRequest cfgW "svc" "in/a.pdf" "PDFA" false true false)
      = (404, "not found") ∧
    (404 : Nat) ≠ 503 ∧ (404 : Nat) ≠ 200 ∧
    process_pdf cfgW fsW postW404 "in/a.pdf" (some "out") "svc"
        false true false true =
      { trace :=
          { opens := ["in/a.pdf"],
            requests := [mkRequest cfgW "svc" "in/a.pdf" "PDFA" false true false],
            sleeps := [], writes := [],
            logs := if true then [("in/a.pdf", 404)] else [],
            prints := ["in/a.pdf",
              "Processing failed with error " ++ toString 404] },
        result := .ok (.failed 404) } :=
  ⟨by decide, rfl, rfl, by decide, by decide,
    C9_failed_terminal cfgW fsW postW404 "in/a.pdf" "out" "svc" false true
      false true 404 "not found" "PDFA" (by decide) rfl rfl (by decide)
      (by decide)⟩

/-- The run record produced by process_pdf when the output directory
argument is None: the TypeError at the path join, captured by the future. -/
def noneOutputRun : PdfRun :=
  { trace := emptyTrace, result := Except.error PyError.typeError }

/-- With a None output directory, one submission leaves the filesystem
unchanged and records a captured TypeError. -/
theorem pb_none_aux (cfg : Config) (post : Request → Nat × String)
    (service : String) (g ch cc el : Bool) :
    ∀ (b : List String) (fs : FS) (acc : List PdfRun),
      b.foldl (pbStep cfg post none service g ch cc el) (fs, acc) =
        (fs, acc ++ b.map (fun _ => noneOutputRun)) := by
  intro b
  induction b with
  | nil => intro fs acc; simp
  | cons f t ih =>
    intro fs acc
    rw [List.foldl_cons]
    have hstep : pbStep cfg post none service g ch cc el (fs, acc) f =
        (fs, acc ++ [noneOutputRun]) := rfl
    rw [hstep, ih]
    simp

/-- With a None output directory, a whole batch leaves the filesystem
unchanged and every submission records a captured TypeError. -/
theorem process_batch_none (cfg : Config) (post : Request → Nat × String)
    (service : String) (g ch cc el : Bool) (fs : FS) (b : List String) :
    process_batch cfg post none service g ch cc el fs b =
      (fs, b.map (fun _ => noneOutputRun)) := by
  simp only [process_batch]
  rw [pb_none_aux]
  simp

/-- With a None output directory, the whole batch sequence accumulates one
captured TypeError per file. -/
theorem run_none_aux (cfg : Config) (post : Request → Nat × String)
    (service : String) (g ch cc el : Bool) :
    ∀ (bs : List (List String)) (fs : FS) (acc : List PdfRun),
      bs.foldl (runStep cfg post none service g ch cc el) (fs, acc) =
        (fs, acc ++ bs.flatten.map (fun _ => noneOutputRun)) := by
  intro bs
  induction bs with
  | nil => intro fs acc; simp
  | cons b bt ih =>
    intro fs acc
    rw [List.foldl_cons]
    have hstep : runStep cfg post none service g ch cc el (fs, acc) b =
        (fs, acc ++ b.map (fun _ => noneOutputRun)) := by
      simp only [runStep]
      rw [process_batch_none]
    rw [hstep, ih]
    simp

/-- C10 counterexample: with a valid input directory containing one PDF
and a None output argument, the run does not raise an uncaught TypeError:
it completes normally; the TypeError of the worker is captured inside the
future and never re-raised. -/
theorem C10_counterexample :
    process cfgW fsW postW200 (some "in") none 10 "svc2" true false false
        false =
      .ok { batches := [["in/a.pdf"]], runs := [noneOutputRun] } :=
  rfl

/-- C10 amended: a None input directory makes the run raise an uncaught
TypeError in discovery before any processing; a None output directory
alone instead makes every worker raise a TypeError when joining the output
path, which the executor captures, so no file is written and no file is
successfully processed, but the run itself completes without an uncaught
exception. -/
theorem C10_none_arguments :
    (∀ (cfg : Config) (fs : FS) (post : Request → Nat × String)
        (out : Option String) (n : Nat) (service : String) (g ch cc el : Bool),
      process cfg fs post none out n service g ch cc el =
        .error .typeError) ∧
    (∀ (cfg : Config) (fs : FS) (post : Request → Nat × String) (dir : String)
        (n : Nat) (service : String) (g ch cc el : Bool), n ≠ 0 →
      process cfg fs post (some dir) none n service g ch cc el =
        .ok { batches := batchesOf cfg.batch_size (globPdf fs dir),
              runs := (batchesOf cfg.batch_size (globPdf fs dir)).flatten.map
                (fun _ => noneOutputRun) }) := by
  constructor
  · intro cfg fs post out n service g ch cc el
    rfl
  · intro cfg fs post dir n service g ch cc el hn
    simp only [process]
    rw [if_neg (fun hc => hn hc.2), run_none_aux]
    simp

/-- C10 witness: the amended statement at a concrete run with a None
output directory. -/
theorem C10_witness :
    process cfgW fsW postW200 (some "in") none 10 "svc" false false false
        false =
      .ok { batches := [["in/a.pdf"]], runs := [noneOutputRun] } :=
  C10_none_arguments.2 cfgW fsW postW200 "in" 10 "svc" false false false
    false (by decide)

end Grobid
